import Mathlib

/-!
Verification development for the football-predictions backend
(`backend/app/ml/feature_engineering.py`, `trainer.py`, `predictor.py`,
`backend/app/api/ml.py`, and the ORM models under `backend/app/models/`).

The Python code is shallowly embedded: database rows become Lean structures,
the mutable SQLAlchemy session becomes an explicit `DB` value threaded through
the operations, pandas dataframe rows become association lists from column
names to `Value`s, Python floats are modelled as rationals, Python exceptions
become `Except` errors, and the external ML libraries (sklearn / xgboost /
torch) are abstracted as parameters, since only their call sites live in this
repository.  Python string comparison (used by `sorted`) and
`str.startswith` / `str.endswith` are embedded explicitly on character lists.
-/

/-- Lexicographic comparison of character lists by code point; this is the
comparison Python uses for strings (`sorted`, `<`). -/
def lexLt : List Char → List Char → Bool
  | [], [] => false
  | [], _ :: _ => true
  | _ :: _, [] => false
  | a :: as, b :: bs => if a < b then true else if b < a then false else lexLt as bs

/-- Python string `<` (lexicographic on code points). -/
def pyStrLt (s t : String) : Bool := lexLt s.data t.data

/-- Python `s.startswith(pre)`. -/
def pyStartsWith (pre s : String) : Bool := pre.data.isPrefixOf s.data

/-- Python `s.endswith(suf)`. -/
def pyEndsWith (suf s : String) : Bool := suf.data.isSuffixOf s.data

/-- The projections of a match timestamp that the code reads: pandas
`dt.dayofweek` (Monday = 0), `dt.month`, and `isoformat()` for display. -/
structure DateTime where
  iso : String
  dayOfWeek : Nat
  month : Nat
deriving DecidableEq

/-- A dataframe cell: Python ints, floats (as rationals), strings, datetimes,
or a missing value (None / NaN). -/
inductive Value where
  | vInt : Int → Value
  | vRat : ℚ → Value
  | vStr : String → Value
  | vDate : DateTime → Value
  | vNone : Value
deriving DecidableEq

/-- Row of the `matches` table (the columns the ML code reads). -/
structure MatchRow where
  id : Nat
  home_team_id : Nat
  away_team_id : Nat
  league : String
  season : String
  match_date : DateTime
  home_score : Option Int
  away_score : Option Int
deriving DecidableEq

/-- Derived `Match.result` property: `"H"` / `"A"` / `"D"` when both final
scores are present, `None` otherwise (`app/models/match.py`). -/
def MatchRow.result (m : MatchRow) : Option Char :=
  match m.home_score, m.away_score with
  | some h, some a => some (if h > a then 'H' else if a > h then 'A' else 'D')
  | _, _ => none

/-- Row of the `teams` table (only `id` and `name` are read here). -/
structure TeamRow where
  id : Nat
  name : String
deriving DecidableEq

/-- Row of the `predictions` table (`app/models/prediction.py`), restricted to
the columns the ML code writes. -/
structure PredictionRecord where
  id : Nat
  match_id : Nat
  model_name : String
  model_version : Option String
  predicted_outcome : Char
  predicted_home_score : Int
  predicted_away_score : Int
  home_win_probability : ℚ
  draw_probability : ℚ
  away_win_probability : ℚ
  overall_confidence : ℚ
deriving DecidableEq

/-- Row of the `model_performance` table (`app/models/model_performance.py`),
restricted to the columns the code reads or writes. -/
structure PerformanceRecord where
  id : Nat
  model_name : String
  model_version : String
  accuracy : ℚ
  training_samples : Nat
  test_samples : Nat
  training_date : Nat
  is_active : Bool
  is_best_model : Bool
deriving DecidableEq

/-- The database session state: the four tables plus autoincrement counters. -/
structure DB where
  teams : List TeamRow
  matchRows : List MatchRow
  predictions : List PredictionRecord
  performances : List PerformanceRecord
  nextPredictionId : Nat
  nextPerformanceId : Nat
deriving DecidableEq

/-- League importance table of `FeatureEngineer._add_basic_features`, with the
`.fillna(3)` default for unknown leagues. -/
def leagueImportance (l : String) : Int :=
  if l = "Premier League" ∨ l = "La Liga" ∨ l = "Bundesliga" ∨ l = "Serie A"
      ∨ l = "Ligue 1" then 5
  else if l = "Champions League" then 6
  else if l = "Europa League" then 4
  else if l = "Championship" then 3
  else if l = "League One" then 2
  else 3

/-- The single-row dataframe built from a `Match` row (the `match_data` dict in
`ModelPredictor._prepare_match_features` / `ModelTrainer._get_training_data`). -/
def baseFrame (m : MatchRow) : List (String × Value) :=
  [("id", Value.vInt m.id),
   ("home_team_id", Value.vInt m.home_team_id),
   ("away_team_id", Value.vInt m.away_team_id),
   ("league", Value.vStr m.league),
   ("season", Value.vStr m.season),
   ("match_date", Value.vDate m.match_date),
   ("home_score", (m.home_score.map Value.vInt).getD Value.vNone),
   ("away_score", (m.away_score.map Value.vInt).getD Value.vNone),
   ("result", (m.result.map (fun c => Value.vStr (String.singleton c))).getD Value.vNone)]

/-- The feature columns appended by `FeatureEngineer.create_features`, in the
order the six `_add_*` helpers add them.  Form, head-to-head, seasonal and
statistical features are the hard-coded placeholder constants of the source;
only `league_importance` and the calendar features read the row. -/
def addedFeatures (m : MatchRow) : List (String × Value) :=
  [("is_home", Value.vInt 1),
   ("league_importance", Value.vInt (leagueImportance m.league)),
   ("home_form_5", Value.vRat (1/2)),
   ("away_form_5", Value.vRat (1/2)),
   ("home_form_10", Value.vRat (1/2)),
   ("away_form_10", Value.vRat (1/2)),
   ("h2h_home_wins", Value.vInt 0),
   ("h2h_away_wins", Value.vInt 0),
   ("h2h_draws", Value.vInt 0),
   ("h2h_goals_home", Value.vInt 0),
   ("h2h_goals_away", Value.vInt 0),
   ("season_progress", Value.vRat (1/2)),
   ("days_since_last_match_home", Value.vInt 7),
   ("days_since_last_match_away", Value.vInt 7),
   ("home_goals_per_match", Value.vRat (3/2)),
   ("away_goals_per_match", Value.vRat (3/2)),
   ("home_goals_against_per_match", Value.vRat (6/5)),
   ("away_goals_against_per_match", Value.vRat (6/5)),
   ("home_win_percentage", Value.vRat (2/5)),
   ("away_win_percentage", Value.vRat (2/5)),
   ("day_of_week", Value.vInt m.match_date.dayOfWeek),
   ("month", Value.vInt m.match_date.month),
   ("is_weekend", Value.vInt (if m.match_date.dayOfWeek = 5 ∨ m.match_date.dayOfWeek = 6 then 1 else 0))]

/-- `FeatureEngineer.create_features` on a single-row dataframe.  The engineer
is constructed with the database session (`FeatureEngineer(db)`), so the
session is a parameter, but the method body never queries it. -/
def create_features (db : DB) (m : MatchRow) : List (String × Value) :=
  let _ := db
  baseFrame m ++ addedFeatures m

/-- `FeatureEngineer.get_feature_columns`. -/
def get_feature_columns : List String :=
  ["is_home", "league_importance", "home_form_5", "away_form_5",
   "home_form_10", "away_form_10", "h2h_home_wins", "h2h_away_wins",
   "h2h_draws", "h2h_goals_home", "h2h_goals_away", "season_progress",
   "days_since_last_match_home", "days_since_last_match_away",
   "home_goals_per_match", "away_goals_per_match",
   "home_goals_against_per_match", "away_goals_against_per_match",
   "home_win_percentage", "away_win_percentage", "day_of_week",
   "month", "is_weekend"]

/-- Find a column in a dataframe row (first match, as pandas column lookup). -/
def lookupCol (frame : List (String × Value)) (c : String) : Option Value :=
  (frame.find? (fun p => p.1 = c)).map (fun p => p.2)

/-- Pandas column selection `df[cols]`: keeps exactly the requested columns in
the requested order; a requested column absent from the frame raises
`KeyError`.  Requested columns that are a subset of the frame are selected
without complaint. -/
def selectColumns (frame : List (String × Value)) : List String → Except String (List (String × Value))
  | [] => .ok []
  | c :: cs =>
    match lookupCol frame c with
    | none => .error ("KeyError: " ++ c ++ " not in index")
    | some v => (selectColumns frame cs).map (fun rest => (c, v) :: rest)

/-- Pandas `.fillna(0)` on a cell. -/
def fillna0 : Value → Value
  | .vNone => .vInt 0
  | v => v

/-- `ModelPredictor._prepare_match_features`: rebuild the feature frame for one
match and reduce it to the artifact's stored column list via `df[cols].fillna(0)`. -/
def prepare_match_features (db : DB) (m : MatchRow) (feature_columns : List String) :
    Except String (List (String × Value)) :=
  (selectColumns (create_features db m) feature_columns).map
    (fun sel => sel.map (fun p => (p.1, fillna0 p.2)))

/-- A stored model artifact: the pickle written by `ModelTrainer._save_model`
(`model`, `model_type`, `feature_columns`, `version`) together with the model
name that, with the version, forms the file name `{name}_{version}.pkl`.  The
fitted model itself is an opaque library object of type `M`. -/
structure StoredArtifact (M : Type) where
  name : String
  version : String
  model_type : String
  feature_columns : List String
  model : M

/-- File name of an artifact in the models directory. -/
def artifactFilename {M : Type} (a : StoredArtifact M) : String :=
  a.name ++ "_" ++ a.version ++ ".pkl"

/-- Python `sorted(files)[-1]`: the lexicographic maximum of a nonempty list. -/
def maxString (c : String) (cs : List String) : String :=
  cs.foldl (fun a b => if pyStrLt a b then b else a) c

/-- `ModelPredictor._load_model`: an explicit version loads exactly
`{name}_{version}.pkl`; an omitted version lists the files that start with
`{name}_` and end with `.pkl` and takes the last in sorted order. -/
def load_model {M : Type} (files : List (StoredArtifact M)) (model_name : String) :
    Option String → Except String (StoredArtifact M)
  | some v =>
    let fn := model_name ++ "_" ++ v ++ ".pkl"
    match files.find? (fun a => artifactFilename a = fn) with
    | some a => .ok a
    | none => .error ("Model file not found: ./models/" ++ fn)
  | none =>
    match (files.map (fun a => artifactFilename a)).filter
        (fun f => pyStartsWith (model_name ++ "_") f && pyEndsWith ".pkl" f) with
    | [] => .error ("No model found for " ++ model_name)
    | c :: cs =>
      let fn := maxString c cs
      match files.find? (fun a => artifactFilename a = fn) with
      | some a => .ok a
      | none => .error ("Model file not found: ./models/" ++ fn)

/-- Inference-side semantics of the opaque library objects: the scaler carried
by a logistic-regression model (`model.scaler.transform`), `predict_proba` /
`predict` on a scaled array and on a raw dataframe, and the composition
`softmax(model(tensor))` of a torch module.  These are external library calls;
the dispatch between them is the repository's code. -/
structure MLSem (M : Type) where
  scale : M → List (String × Value) → List ℚ
  probaArr : M → List ℚ → List ℚ
  classArr : M → List ℚ → Nat
  probaDf : M → List (String × Value) → List ℚ
  classDf : M → List (String × Value) → Nat
  nnProba : M → List (String × Value) → List ℚ

/-- Index of the first maximal element (`np.argmax`); `np.argmax` of an empty
array raises, which the caller models separately. -/
def argmaxAux : List ℚ → Nat → Nat → ℚ → Nat
  | [], _, best, _ => best
  | x :: xs, i, best, bv =>
    if bv < x then argmaxAux xs (i + 1) i x else argmaxAux xs (i + 1) best bv

/-- First-occurrence argmax of a nonempty list, 0 on the empty list. -/
def argmaxQ : List ℚ → Nat
  | [] => 0
  | x :: xs => argmaxAux xs 1 0 x

/-- `np.max` of a probability vector; `none` models the numpy error on an
empty array. -/
def maxQ : List ℚ → Option ℚ
  | [] => none
  | x :: xs => some (xs.foldl max x)

/-- Python `round` (round half to even), as used in `int(round(p * 3))`. -/
def roundHalfEven (q : ℚ) : Int :=
  if q - ⌊q⌋ < 1/2 then ⌊q⌋
  else if (1:ℚ)/2 < q - ⌊q⌋ then ⌊q⌋ + 1
  else if ⌊q⌋ % 2 = 0 then ⌊q⌋ else ⌊q⌋ + 1

/-- The model-family dispatch at the top of `ModelPredictor._make_prediction`:
the probability vector and predicted class produced by the loaded model.  The
error case models `np.argmax` on an empty softmax output. -/
def runModel {M : Type} (sem : MLSem M) (model : M) (feats : List (String × Value))
    (model_type : String) : Except String (List ℚ × Nat) :=
  if model_type = "logistic_regression" then
    let scaled := sem.scale model feats
    .ok (sem.probaArr model scaled, sem.classArr model scaled)
  else if model_type = "neural_network" then
    let p := sem.nnProba model feats
    if p.isEmpty then .error "attempt to get argmax of an empty sequence"
    else .ok (p, argmaxQ p)
  else
    .ok (sem.probaDf model feats, sem.classDf model feats)

/-- The `outcome_map = {0: H, 1: A, 2: D}` dict lookup; any other class raises
`KeyError`. -/
def outcomeOf : Nat → Except String Char
  | 0 => .ok 'H'
  | 1 => .ok 'A'
  | 2 => .ok 'D'
  | n => .error ("KeyError: " ++ toString n)

/-- The fields of the dict returned by `ModelPredictor._make_prediction`. -/
structure PredOut where
  predicted_outcome : Char
  predicted_home_score : Int
  predicted_away_score : Int
  home_win_probability : ℚ
  draw_probability : ℚ
  away_win_probability : ℚ
  overall_confidence : ℚ
deriving DecidableEq

/-- `ModelPredictor._make_prediction`: dispatch on the model family, map the
class through `outcome_map`, take `np.max` of the probability vector as the
confidence, read the three outcome probabilities off indices 0 / 1 / 2, and
estimate the scoreline as `int(round(prob * 3))`. -/
def make_prediction {M : Type} (sem : MLSem M) (model : M) (feats : List (String × Value))
    (model_type : String) : Except String PredOut :=
  match runModel sem model feats model_type with
  | .error e => .error e
  | .ok (p, cls) =>
    match outcomeOf cls with
    | .error e => .error e
    | .ok oc =>
      match maxQ p with
      | none => .error "zero-size array to reduction operation maximum"
      | some mx =>
        match p[0]?, p[1]?, p[2]? with
        | some hp, some ap, some dp =>
          .ok { predicted_outcome := oc,
                predicted_home_score := roundHalfEven (hp * 3),
                predicted_away_score := roundHalfEven (ap * 3),
                home_win_probability := hp,
                draw_probability := dp,
                away_win_probability := ap,
                overall_confidence := mx }
        | _, _, _ => .error "index 2 is out of bounds"

/-- `ModelPredictor._save_prediction`: build a `Prediction` row from the
result dict (the stored `model_version` is the possibly-omitted request
argument), add and commit it, and refresh to obtain its id. -/
def save_prediction (db : DB) (match_id : Nat) (model_name : String)
    (model_version : Option String) (out : PredOut) : PredictionRecord × DB :=
  let row : PredictionRecord :=
    { id := db.nextPredictionId,
      match_id := match_id,
      model_name := model_name,
      model_version := model_version,
      predicted_outcome := out.predicted_outcome,
      predicted_home_score := out.predicted_home_score,
      predicted_away_score := out.predicted_away_score,
      home_win_probability := out.home_win_probability,
      draw_probability := out.draw_probability,
      away_win_probability := out.away_win_probability,
      overall_confidence := out.overall_confidence }
  (row, { db with predictions := db.predictions ++ [row],
                  nextPredictionId := db.nextPredictionId + 1 })

/-- Team-name lookup through the `home_team` / `away_team` relationship; a
dangling foreign key surfaces as the Python attribute error on `None`. -/
def teamNameOf (db : DB) (team_id : Nat) : Except String String :=
  match db.teams.find? (fun t => t.id = team_id) with
  | some t => .ok t.name
  | none => .error "AttributeError: NoneType object has no attribute name"

/-- The dict returned by `ModelPredictor.predict_match` on success. -/
structure PredictResponse where
  match_id : Nat
  home_team : String
  away_team : String
  match_date : String
  prediction : PredOut
  prediction_id : Nat
deriving DecidableEq

/-- Body of the `try` block of `ModelPredictor.predict_match`: fetch the match,
load the model, rebuild and reduce the features, run the model, persist the
prediction, then assemble the response (team names are read while building the
returned dict, after the commit). -/
def predict_match_core {M : Type} (sem : MLSem M) (files : List (StoredArtifact M))
    (db : DB) (match_id : Nat) (model_name : String) (model_version : Option String) :
    Except String (PredictResponse × DB) :=
  match db.matchRows.find? (fun m => m.id = match_id) with
  | none => .error ("Match " ++ toString match_id ++ " not found")
  | some m =>
    match load_model files model_name model_version with
    | .error e => .error e
    | .ok art =>
      match prepare_match_features db m art.feature_columns with
      | .error e => .error e
      | .ok feats =>
        match make_prediction sem art.model feats art.model_type with
        | .error e => .error e
        | .ok out =>
          let saved := save_prediction db match_id model_name model_version out
          match teamNameOf db m.home_team_id, teamNameOf db m.away_team_id with
          | .ok hn, .ok an =>
            .ok ({ match_id := match_id,
                   home_team := hn,
                   away_team := an,
                   match_date := m.match_date.iso,
                   prediction := out,
                   prediction_id := saved.1.id }, saved.2)
          | .error e, _ => .error e
          | _, .error e => .error e

/-- `ModelPredictor.predict_match`: every exception of the body is caught and
re-raised as the generic `Exception("Prediction failed: ...")`. -/
def predict_match {M : Type} (sem : MLSem M) (files : List (StoredArtifact M))
    (db : DB) (match_id : Nat) (model_name : String) (model_version : Option String) :
    Except String (PredictResponse × DB) :=
  match predict_match_core sem files db match_id model_name model_version with
  | .ok x => .ok x
  | .error e => .error ("Prediction failed: " ++ e)

/-- One element of the list returned by `predict_matches_batch`: either the
response dict of a successful item or the `{match_id, error}` dict of a
failed one. -/
inductive BatchEntry where
  | ok : PredictResponse → BatchEntry
  | err : Nat → String → BatchEntry
deriving DecidableEq

/-- The requested match id recorded in either kind of batch entry. -/
def entryMatchId : BatchEntry → Nat
  | .ok r => r.match_id
  | .err i _ => i

/-- Loop body of `ModelPredictor.predict_matches_batch`: each id is predicted
in turn against the session state left by the previous iterations; an
exception is converted into an inline `{match_id, error}` entry and the loop
continues. -/
def batchGo {M : Type} (sem : MLSem M) (files : List (StoredArtifact M))
    (model_name : String) (model_version : Option String) :
    List Nat → DB → List BatchEntry × DB
  | [], db => ([], db)
  | i :: rest, db =>
    match predict_match sem files db i model_name model_version with
    | .ok (r, db') =>
      let t := batchGo sem files model_name model_version rest db'
      (.ok r :: t.1, t.2)
    | .error e =>
      let t := batchGo sem files model_name model_version rest db
      (.err i e :: t.1, t.2)

/-- `ModelPredictor.predict_matches_batch`. -/
def predict_matches_batch {M : Type} (sem : MLSem M) (files : List (StoredArtifact M))
    (db : DB) (match_ids : List Nat) (model_name : String) (model_version : Option String) :
    List BatchEntry × DB :=
  batchGo sem files model_name model_version match_ids db

/-- A Python exception reaching the `except Exception` clause of an API
handler: either a FastAPI `HTTPException` raised inside the `try` block (it
derives from `Exception`, so the clause catches it too) or any other
exception, carrying `str(e)`. -/
inductive PyExn where
  | http : Nat → String → PyExn
  | exn : String → PyExn
deriving DecidableEq

/-- The `str(e)` of a caught exception (`"{status}: {detail}"` for an
`HTTPException`). -/
def strOfExn : PyExn → String
  | .http status detail => toString status ++ ": " ++ detail
  | .exn msg => msg

/-- Body of the `try` block of the `/predict` handler in `app/api/ml.py`:
re-query the match (404 if absent — raised inside the `try`), then delegate to
`ModelPredictor.predict_match`. -/
def api_predict_core {M : Type} (sem : MLSem M) (files : List (StoredArtifact M))
    (db : DB) (match_id : Nat) (model_name : String) (model_version : Option String) :
    Except PyExn (PredictResponse × DB) :=
  match db.matchRows.find? (fun m => m.id = match_id) with
  | none => .error (.http 404 "Match not found")
  | some _ =>
    match predict_match sem files db match_id model_name model_version with
    | .ok x => .ok x
    | .error e => .error (.exn e)

/-- The `/predict` handler: any exception of the body — the 404
`HTTPException` included — is caught by `except Exception` and re-raised as
`HTTPException(500, "Prediction failed: " + str(e))`. -/
def api_predict_match {M : Type} (sem : MLSem M) (files : List (StoredArtifact M))
    (db : DB) (match_id : Nat) (model_name : String) (model_version : Option String) :
    Except (Nat × String) (PredictResponse × DB) :=
  match api_predict_core sem files db match_id model_name model_version with
  | .ok x => .ok x
  | .error e => .error (500, "Prediction failed: " ++ strOfExn e)

/-- Status code of a failed API call, if it failed. -/
def errStatus {A : Type} : Except (Nat × String) A → Option Nat
  | .error e => some e.1
  | .ok _ => none

/-- The `ORDER BY training_date DESC ... first()` query of the activation
handler: the first row (in table order, as a stable sort leaves ties) among
those with maximal `training_date`. -/
def pickLatest : List PerformanceRecord → Option PerformanceRecord
  | [] => none
  | r :: rs =>
    match pickLatest rs with
    | none => some r
    | some b => if r.training_date < b.training_date then some b else some r

/-- The effect of the bulk `update({"is_active": False})` on one row. -/
def deactivate (model_name : String) (r : PerformanceRecord) : PerformanceRecord :=
  if r.model_name = model_name then { r with is_active := false } else r

/-- The bulk `update({"is_active": False})` over all rows of the given model
name. -/
def clearActive (model_name : String) (rs : List PerformanceRecord) : List PerformanceRecord :=
  rs.map (deactivate model_name)

/-- The `/models/{model_name}/activate` handler: deactivate every row of the
name, then set `is_active` on the latest row by training date (the route takes
no version argument); 404 if the name has no rows.  Returns the new session
state and the activated version. -/
def activate_model (model_name : String) (db : DB) :
    Except (Nat × String) (DB × String) :=
  let cleared := clearActive model_name db.performances
  match pickLatest (cleared.filter (fun r => r.model_name = model_name)) with
  | none => .error (404, "Model not found")
  | some latest =>
    .ok ({ db with performances :=
             cleared.map (fun r => if r.id = latest.id then { r with is_active := true } else r) },
         latest.model_version)

/-- The `DELETE /models/{model_name}` handler: delete every `Prediction` and
every `ModelPerformance` row whose `model_name` matches, then commit. -/
def delete_model (model_name : String) (db : DB) : DB × String :=
  ({ db with
       predictions := db.predictions.filter (fun p => ¬ p.model_name = model_name),
       performances := db.performances.filter (fun r => ¬ r.model_name = model_name) },
   "Model " ++ model_name ++ " and all its predictions deleted")

/-- The training request as consumed by `ModelTrainer.train_model` — the
fields of the `TrainingRequest` pydantic model, which its only caller passes
as a dict. -/
structure TrainConfig where
  model_name : String
  model_type : String
  league : Option String := none
  season : Option String := none
  test_size : ℚ := 1/5
  random_state : Int := 42
  hyperparameters : List (String × ℚ) := []

/-- The metrics dict built by `ModelTrainer._evaluate_model`. -/
structure Metrics where
  accuracy : ℚ
  precision_home : ℚ
  precision_draw : ℚ
  precision_away : ℚ
  recall_home : ℚ
  recall_draw : ℚ
  recall_away : ℚ
  f1_score_home : ℚ
  f1_score_draw : ℚ
  f1_score_away : ℚ
  confusion_matrix : List (List Nat)

/-- The external library calls made by `ModelTrainer`, abstracted: the
stratified `train_test_split`, the four family-specific fits (each receives
the config for its hyperparameters and may raise), the evaluation of a fitted
model on the held-out partition, and the clock reads (`now` is the
`%Y%m%d_%H%M%S` version string, `nowDate` the performance-row timestamp,
`elapsed` the formatted wall-clock duration). -/
structure TrainParams (M : Type) where
  split : List (List (String × Value)) → List (Option Nat) → ℚ → Int →
    Except String (List (List (String × Value)) × List (List (String × Value)) ×
      List (Option Nat) × List (Option Nat))
  fitRF : TrainConfig → List (List (String × Value)) → List (Option Nat) → Except String M
  fitXGB : TrainConfig → List (List (String × Value)) → List (Option Nat) → Except String M
  fitLR : TrainConfig → List (List (String × Value)) → List (Option Nat) → Except String M
  fitNN : TrainConfig → List (List (String × Value)) → List (Option Nat) → Except String M
  evaluate : M → String → List (List (String × Value)) → List (Option Nat) →
    Except String Metrics
  now : String
  nowDate : Nat
  elapsed : String

/-- The label encoding `{'H': 0, 'A': 1, 'D': 2}` applied to the `result`
column (`None` stays missing, as pandas `map` leaves unmatched values `NaN`). -/
def resultCode (c : Char) : Option Nat :=
  if c = 'H' then some 0 else if c = 'A' then some 1 else if c = 'D' then some 2 else none

/-- The filtered query of `ModelTrainer._get_training_data`: matches with both
final scores, optionally restricted by league and season (a falsy filter —
`None` or the empty string — is skipped, as `config.get(...)` is tested for
truthiness). -/
def getTrainingMatches (db : DB) (cfg : TrainConfig) : List MatchRow :=
  let withScores := db.matchRows.filter
    (fun m => m.home_score.isSome && m.away_score.isSome)
  let byLeague :=
    match cfg.league with
    | some l => if l = "" then withScores else withScores.filter (fun m => m.league = l)
    | none => withScores
  match cfg.season with
  | some s => if s = "" then byLeague else byLeague.filter (fun m => m.season = s)
  | none => byLeague

/-- `FeatureEngineer.prepare_training_data`: build the feature frame for every
row, select the fixed feature columns with `fillna(0)`, and encode the labels. -/
def prepare_training_data (db : DB) (rows : List MatchRow) :
    Except String (List (List (String × Value)) × List (Option Nat) × List String) :=
  (rows.mapM (fun m => prepare_match_features db m get_feature_columns)).map
    (fun xs => (xs, rows.map (fun m => m.result.bind resultCode), get_feature_columns))

/-- `ModelTrainer._get_training_data`: empty query result short-circuits to
empty data, otherwise features and labels are prepared. -/
def get_training_data (db : DB) (cfg : TrainConfig) :
    Except String (List (List (String × Value)) × List (Option Nat) × List String) :=
  match getTrainingMatches db cfg with
  | [] => .ok ([], [], [])
  | ms => prepare_training_data db ms

/-- `ModelTrainer._train_model_by_type`: dispatch on the family tag; an
unknown tag raises `ValueError("Unknown model type: ...")`. -/
def train_model_by_type {M : Type} (p : TrainParams M) (cfg : TrainConfig)
    (Xtr : List (List (String × Value))) (ytr : List (Option Nat)) : Except String M :=
  if cfg.model_type = "random_forest" then p.fitRF cfg Xtr ytr
  else if cfg.model_type = "xgboost" then p.fitXGB cfg Xtr ytr
  else if cfg.model_type = "logistic_regression" then p.fitLR cfg Xtr ytr
  else if cfg.model_type = "neural_network" then p.fitNN cfg Xtr ytr
  else .error ("Unknown model type: " ++ cfg.model_type)

/-- The structured result dict returned by `ModelTrainer.train_model`. -/
inductive TrainResult where
  | success (model_name model_version : String) (accuracy : ℚ) (training_time : String)
  | failure (message model_name : String)
deriving DecidableEq

/-- Body of the `try` block of `ModelTrainer.train_model`: data retrieval
(with the explicit empty-data `ValueError`), stratified split, family
dispatch, evaluation, and the artifact / performance rows to persist
(`is_active = False` on the new performance row). -/
def trainCore {M : Type} (p : TrainParams M) (cfg : TrainConfig) (db : DB) :
    Except String (Metrics × StoredArtifact M × PerformanceRecord) :=
  match get_training_data db cfg with
  | .error e => .error e
  | .ok (X, y, fcols) =>
    if X.length = 0 then .error "No training data available"
    else
      match p.split X y cfg.test_size cfg.random_state with
      | .error e => .error e
      | .ok (Xtr, Xte, ytr, _yte) =>
        match train_model_by_type p cfg Xtr ytr with
        | .error e => .error e
        | .ok model =>
          match p.evaluate model cfg.model_type Xte _yte with
          | .error e => .error e
          | .ok mets =>
            .ok (mets,
                 { name := cfg.model_name, version := p.now,
                   model_type := cfg.model_type, feature_columns := fcols,
                   model := model },
                 { id := db.nextPerformanceId,
                   model_name := cfg.model_name,
                   model_version := p.now,
                   accuracy := mets.accuracy,
                   training_samples := Xtr.length,
                   test_samples := Xte.length,
                   training_date := p.nowDate,
                   is_active := false,
                   is_best_model := false })

/-- `ModelTrainer.train_model`: the whole body runs under
`try ... except Exception`, so the caller always receives a structured result
— `{"status": "success", model_name, model_version, accuracy, training_time}`
on success, `{"status": "error", "error": str(e), model_name}` on any failure.
Returns the result together with the session state and models directory. -/
def train_model {M : Type} (p : TrainParams M) (cfg : TrainConfig) (db : DB)
    (files : List (StoredArtifact M)) : TrainResult × DB × List (StoredArtifact M) :=
  match trainCore p cfg db with
  | .ok (mets, art, perf) =>
    (.success cfg.model_name p.now mets.accuracy p.elapsed,
     { db with performances := db.performances ++ [perf],
               nextPerformanceId := db.nextPerformanceId + 1 },
     files ++ [art])
  | .error e => (.failure e cfg.model_name, db, files)

/-- Mapping a function over an `Except` preserves whether it is `ok`. -/
theorem exceptMap_isOk {γ α β : Type} (f : α → β) (e : Except γ α) :
    (Except.map f e).isOk = e.isOk := by
  cases e <;> rfl

/-- A column lookup succeeds exactly when the name is among the frame's
columns. -/
theorem lookupCol_isSome_iff (frame : List (String × Value)) (c : String) :
    (lookupCol frame c).isSome = true ↔ c ∈ frame.map Prod.fst := by
  unfold lookupCol
  cases hf : frame.find? (fun p => decide (p.1 = c)) with
  | none =>
    constructor
    · intro h; simp at h
    · intro h
      rcases List.mem_map.mp h with ⟨p, hp, hpc⟩
      have hnone := List.find?_eq_none.mp hf p hp
      simp [hpc] at hnone
  | some p =>
    constructor
    · intro _
      have h1 := List.find?_some hf
      have h2 := List.mem_of_find?_eq_some hf
      simp only [decide_eq_true_eq] at h1
      exact List.mem_map.mpr ⟨p, h2, h1⟩
    · intro _; simp

/-- Pandas column selection succeeds exactly when every requested column can
be looked up. -/
theorem selectColumns_isOk_iff (frame : List (String × Value)) (cols : List String) :
    (selectColumns frame cols).isOk = true ↔
      ∀ c ∈ cols, (lookupCol frame c).isSome = true := by
  induction cols with
  | nil => simp [selectColumns, Except.isOk, Except.toBool]
  | cons c cs ih =>
    cases h : lookupCol frame c with
    | none => simp [selectColumns, h, Except.isOk, Except.toBool]
    | some v =>
      have hm : ∀ rest, ((Except.map (fun r => (c, v) :: r) rest : Except String _)).isOk
          = rest.isOk := by
        intro rest; cases rest <;> rfl
      simp [selectColumns, h, hm, ih]

/-- A successful pandas selection returns exactly the requested columns, in
the requested order. -/
theorem selectColumns_ok_fst (frame : List (String × Value)) (cols : List String)
    (out : List (String × Value)) (h : selectColumns frame cols = .ok out) :
    out.map Prod.fst = cols := by
  induction cols generalizing out with
  | nil => simp [selectColumns] at h; simp [← h]
  | cons c cs ih =>
    cases hl : lookupCol frame c with
    | none => simp [selectColumns, hl] at h
    | some v =>
      simp only [selectColumns, hl] at h
      cases hr : selectColumns frame cs with
      | error e => rw [hr] at h; simp [Except.map] at h
      | ok rest =>
        rw [hr] at h; simp [Except.map] at h
        subst h
        simp [ih rest hr]

/-- Claim C1, amended.  Feature preparation for a prediction fails exactly
when the artifact's stored column list names a column absent from the freshly
computed frame (surfaced as a wrapped generic `KeyError`, not a typed
`ValidationError`); a stored list that is a subset of the computed columns —
a strict subset included — is silently accepted, and the vector is reduced to
exactly the stored columns in their stored order (with missing values padded
to 0 by `fillna`). -/
theorem c1_schema_reduction (db : DB) (m : MatchRow) (cols : List String) :
    ((prepare_match_features db m cols).isOk = true ↔
      ∀ c ∈ cols, c ∈ (create_features db m).map Prod.fst)
    ∧ (∀ out, prepare_match_features db m cols = .ok out → out.map Prod.fst = cols) := by
  constructor
  · rw [prepare_match_features, exceptMap_isOk, selectColumns_isOk_iff]
    simp only [lookupCol_isSome_iff]
  · intro out h
    rw [prepare_match_features] at h
    cases hs : selectColumns (create_features db m) cols with
    | error e => rw [hs] at h; simp [Except.map] at h
    | ok sel =>
      rw [hs] at h; simp only [Except.map, Except.ok.injEq] at h
      subst h
      rw [List.map_map]
      exact selectColumns_ok_fst _ _ _ hs

/-- An empty database session. -/
def dbEmpty : DB := ⟨[], [], [], [], 1, 1⟩

/-- A finished Premier League match used as a concrete fixture. -/
def mFix : MatchRow :=
  ⟨1, 10, 20, "Premier League", "2023/24", ⟨"2024-03-02T15:00:00", 5, 3⟩, some 2, some 1⟩

/-- Claim C1, counterexample to the claim as stated: the stored column list
`["is_home"]` is a strict subset of the computed frame's columns — so it
differs from the computed column set — yet feature preparation succeeds and
silently truncates the vector to that single column instead of failing. -/
theorem c1_counterexample :
    (prepare_match_features dbEmpty mFix ["is_home"]).isOk = true
    ∧ ¬ (["is_home"] = (create_features dbEmpty mFix).map Prod.fst)
    ∧ (∀ c ∈ ["is_home"], c ∈ (create_features dbEmpty mFix).map Prod.fst) := by
  refine ⟨rfl, ?_, ?_⟩ <;> decide

/-- Claim C1, witness: the amended theorem applied to the truncating fixture. -/
theorem c1_witness :
    ([("is_home", Value.vInt 1)].map Prod.fst : List String) = ["is_home"] :=
  (c1_schema_reduction dbEmpty mFix ["is_home"]).2 [("is_home", Value.vInt 1)] rfl

/-- Claim C7.  Deleting a model name removes exactly the `Prediction` and
`ModelPerformance` rows carrying that name and leaves every other row — and
the other tables — unchanged. -/
theorem c7_cascade_delete (model_name : String) (db : DB) :
    (∀ p : PredictionRecord,
        p ∈ (delete_model model_name db).1.predictions ↔
          p ∈ db.predictions ∧ p.model_name ≠ model_name)
    ∧ (∀ r : PerformanceRecord,
        r ∈ (delete_model model_name db).1.performances ↔
          r ∈ db.performances ∧ r.model_name ≠ model_name)
    ∧ (delete_model model_name db).1.matchRows = db.matchRows
    ∧ (delete_model model_name db).1.teams = db.teams := by
  refine ⟨fun p => ?_, fun r => ?_, rfl, rfl⟩ <;>
    simp [delete_model, List.mem_filter]

/-- Claim C8.  `FeatureEngineer.create_features` is deterministic and free of
hidden state: its output depends only on the input row — in particular it is
independent of the database session the engineer was constructed with, and two
calls on the same row give identical output. -/
theorem c8_create_features_deterministic :
    ∀ (db db' : DB) (m : MatchRow), create_features db m = create_features db' m :=
  fun _ _ _ => rfl

/-- Claim C10.  For every input row the feature engineer emits the hard-coded
placeholder constants for the form, head-to-head, seasonal and statistical
features — forms 0.5, all five head-to-head counts 0, season progress 0.5,
both rest-day fields 7, goals per match 1.5, goals against per match 1.2, win
percentage 0.4 on both sides — and the appended feature columns depend on the
row only through its league and its timestamp. -/
theorem c10_placeholder_features (db : DB) (m : MatchRow) :
    lookupCol (create_features db m) "home_form_5" = some (Value.vRat (1/2))
    ∧ lookupCol (create_features db m) "away_form_5" = some (Value.vRat (1/2))
    ∧ lookupCol (create_features db m) "home_form_10" = some (Value.vRat (1/2))
    ∧ lookupCol (create_features db m) "away_form_10" = some (Value.vRat (1/2))
    ∧ lookupCol (create_features db m) "h2h_home_wins" = some (Value.vInt 0)
    ∧ lookupCol (create_features db m) "h2h_away_wins" = some (Value.vInt 0)
    ∧ lookupCol (create_features db m) "h2h_draws" = some (Value.vInt 0)
    ∧ lookupCol (create_features db m) "h2h_goals_home" = some (Value.vInt 0)
    ∧ lookupCol (create_features db m) "h2h_goals_away" = some (Value.vInt 0)
    ∧ lookupCol (create_features db m) "season_progress" = some (Value.vRat (1/2))
    ∧ lookupCol (create_features db m) "days_since_last_match_home" = some (Value.vInt 7)
    ∧ lookupCol (create_features db m) "days_since_last_match_away" = some (Value.vInt 7)
    ∧ lookupCol (create_features db m) "home_goals_per_match" = some (Value.vRat (3/2))
    ∧ lookupCol (create_features db m) "away_goals_per_match" = some (Value.vRat (3/2))
    ∧ lookupCol (create_features db m) "home_goals_against_per_match" = some (Value.vRat (6/5))
    ∧ lookupCol (create_features db m) "away_goals_against_per_match" = some (Value.vRat (6/5))
    ∧ lookupCol (create_features db m) "home_win_percentage" = some (Value.vRat (2/5))
    ∧ lookupCol (create_features db m) "away_win_percentage" = some (Value.vRat (2/5))
    ∧ (∀ m' : MatchRow, m.league = m'.league → m.match_date = m'.match_date →
        addedFeatures m = addedFeatures m') := by
  refine ⟨rfl, rfl, rfl, rfl, rfl, rfl, rfl, rfl, rfl, rfl, rfl, rfl, rfl, rfl, rfl, rfl,
    rfl, rfl, ?_⟩
  intro m' h1 h2
  simp [addedFeatures, h1, h2]

/-- A fixture differing from `mFix` in everything except league and
timestamp. -/
def mFix2 : MatchRow :=
  ⟨77, 30, 40, "Premier League", "2024/25", ⟨"2024-03-02T15:00:00", 5, 3⟩, none, none⟩

/-- Claim C10, witness: the dependency clause applied to two rows that agree
only on league and timestamp. -/
theorem c10_witness : addedFeatures mFix = addedFeatures mFix2 := by
  have h := c10_placeholder_features dbEmpty mFix
  exact h.2.2.2.2.2.2.2.2.2.2.2.2.2.2.2.2.2.2 mFix2 rfl rfl

/-- A successful core prediction reports the requested match id in its
`match_id` field. -/
theorem predict_match_core_ok_id {M : Type} (sem : MLSem M) (files : List (StoredArtifact M))
    (db : DB) (mid : Nat) (mn : String) (mv : Option String) (r : PredictResponse) (db2 : DB)
    (h : predict_match_core sem files db mid mn mv = .ok (r, db2)) : r.match_id = mid := by
  unfold predict_match_core at h
  repeat' split at h
  all_goals simp_all
  rw [← h.1]

/-- A successful prediction reports the requested match id. -/
theorem predict_match_ok_id {M : Type} (sem : MLSem M) (files : List (StoredArtifact M))
    (db : DB) (mid : Nat) (mn : String) (mv : Option String) (r : PredictResponse) (db2 : DB)
    (h : predict_match sem files db mid mn mv = .ok (r, db2)) : r.match_id = mid := by
  unfold predict_match at h
  cases hc : predict_match_core sem files db mid mn mv with
  | ok x => rw [hc] at h; cases h; exact predict_match_core_ok_id sem files db mid mn mv _ _ hc
  | error e => rw [hc] at h; simp at h

/-- Claim C3.  Batch prediction returns exactly one entry per requested id, in
request order — each entry (success dict or inline `{match_id, error}` dict)
carries the id at its position — and a failure on one id only produces an
inline error entry at that position while the remaining ids are still
processed against the unchanged session; the batch function is total, so the
call never propagates an exception for a bad id. -/
theorem c3_batch_isolation (M : Type) (sem : MLSem M) (files : List (StoredArtifact M))
    (mn : String) (mv : Option String) :
    (∀ (ids : List Nat) (db : DB),
        ((predict_matches_batch sem files db ids mn mv).1).map entryMatchId = ids)
    ∧ (∀ (db : DB) (i : Nat) (rest : List Nat) (e : String),
        predict_match sem files db i mn mv = .error e →
          (predict_matches_batch sem files db (i :: rest) mn mv).1 =
            .err i e :: (predict_matches_batch sem files db rest mn mv).1) := by
  constructor
  · intro ids
    induction ids with
    | nil => intro db; rfl
    | cons i rest ih =>
      intro db
      cases h : predict_match sem files db i mn mv with
      | ok x =>
        obtain ⟨r, db'⟩ := x
        have hid := predict_match_ok_id sem files db i mn mv r db' h
        simp [predict_matches_batch, batchGo, h, entryMatchId, hid]
        exact ih db'
      | error e =>
        simp [predict_matches_batch, batchGo, h, entryMatchId]
        exact ih db
  · intro db i rest e h
    simp [predict_matches_batch, batchGo, h]

/-- Trivial inference semantics over a unit model, used by concrete fixtures. -/
def semFix : MLSem Unit :=
  { scale := fun _ _ => [], probaArr := fun _ _ => [], classArr := fun _ _ => 0,
    probaDf := fun _ _ => [], classDf := fun _ _ => 0, nnProba := fun _ _ => [] }

/-- Claim C3, witness: a batch over one missing match id yields exactly its
inline error entry. -/
theorem c3_witness :
    (predict_matches_batch semFix ([] : List (StoredArtifact Unit)) dbEmpty [1] "m" none).1 =
      [BatchEntry.err 1 "Prediction failed: Match 1 not found"] := by
  have h := (c3_batch_isolation Unit semFix [] "m" none).2 dbEmpty 1 []
    "Prediction failed: Match 1 not found" rfl
  exact h

/-- Claim C9, amended.  Every failed single-match prediction surfaces through
the API as the one generic kind `HTTPException(500, "Prediction failed: ...")`
carrying only a message string: the predictor collapses every underlying
exception into a generic `Exception`, and the handler's `except Exception`
clause catches even its own 404 `HTTPException`, so not-found, validation and
persistence failures are not distinguishable by error type or status code. -/
theorem c9_always_500 {M : Type} (sem : MLSem M) (files : List (StoredArtifact M))
    (db : DB) (mid : Nat) (mn : String) (mv : Option String) (e : Nat × String)
    (h : api_predict_match sem files db mid mn mv = .error e) : e.1 = 500 := by
  unfold api_predict_match at h
  cases hc : api_predict_core sem files db mid mn mv with
  | ok x => rw [hc] at h; simp at h
  | error pe => rw [hc] at h; cases h; rfl

/-- Fixture session for the API-surface claims: two teams and one finished
match. -/
def dbC9 : DB := ⟨[⟨10, "Alpha"⟩, ⟨20, "Beta"⟩], [mFix], [], [], 1, 1⟩

/-- An artifact whose stored column list names a column that feature
engineering does not produce. -/
def badArt : StoredArtifact Unit := ⟨"m", "20240101_000000", "random_forest", ["nope"], ()⟩

/-- Claim C9, counterexample to the claim as stated: three failures of
different underlying kinds — missing match (not-found), missing model
artifact (not-found), and a stored-schema mismatch (validation) — all surface
with the identical status 500, so the caller cannot branch on the error
kind. -/
theorem c9_counterexample :
    errStatus (api_predict_match semFix ([] : List (StoredArtifact Unit)) dbC9 99 "m" none)
        = some 500
    ∧ errStatus (api_predict_match semFix ([] : List (StoredArtifact Unit)) dbC9 1 "m" none)
        = some 500
    ∧ errStatus (api_predict_match semFix [badArt] dbC9 1 "m" none) = some 500 :=
  ⟨rfl, rfl, rfl⟩

/-- Claim C9, witness: the amended theorem applied to a concrete failing
request. -/
theorem c9_witness :
    api_predict_match semFix ([] : List (StoredArtifact Unit)) dbEmpty 1 "m" none
        = .error (500, "Prediction failed: 404: Match not found")
    ∧ ((500 : Nat), "Prediction failed: 404: Match not found").1 = 500 :=
  ⟨rfl, c9_always_500 semFix [] dbEmpty 1 "m" none
    (500, "Prediction failed: 404: Match not found") rfl⟩

/-- Claim C5.  Whenever the loaded model produces a three-element probability
vector that is a simplex point within 1e-6 and the prediction succeeds, the
result's three outcome probabilities sum to 1 within 1e-6 (the code passes the
vector through unchanged, with home at index 0, away at 1, draw at 2) and the
overall confidence equals the maximum of the three probabilities (`np.max` of
the vector). -/
theorem c5_simplex {M : Type} (sem : MLSem M) (model : M) (feats : List (String × Value))
    (mtype : String) (p0 p1 p2 : ℚ) (cls : Nat) (out : PredOut)
    (h1 : runModel sem model feats mtype = .ok ([p0, p1, p2], cls))
    (h2 : |p0 + p1 + p2 - 1| ≤ 1/1000000)
    (h3 : make_prediction sem model feats mtype = .ok out) :
    |out.home_win_probability + out.away_win_probability + out.draw_probability - 1|
        ≤ 1/1000000
    ∧ out.overall_confidence
        = max out.home_win_probability (max out.away_win_probability out.draw_probability) := by
  unfold make_prediction at h3
  rw [h1] at h3
  dsimp only at h3
  cases ho : outcomeOf cls with
  | error e => rw [ho] at h3; simp at h3
  | ok oc =>
    rw [ho] at h3
    simp only [maxQ, List.foldl, List.getElem?_cons_zero, List.getElem?_cons_succ] at h3
    cases h3
    refine ⟨h2, ?_⟩
    show max (max p0 p1) p2 = max p0 (max p1 p2)
    exact max_assoc p0 p1 p2

/-- Inference semantics returning a fixed probability vector, used as the C5
fixture. -/
def semC5 : MLSem Unit :=
  { scale := fun _ _ => [], probaArr := fun _ _ => [], classArr := fun _ _ => 0,
    probaDf := fun _ _ => [1/2, 3/10, 1/5], classDf := fun _ _ => 0,
    nnProba := fun _ _ => [] }

/-- The prediction dict produced from the fixture probability vector. -/
def outC5 : PredOut :=
  { predicted_outcome := 'H',
    predicted_home_score := roundHalfEven (1/2 * 3),
    predicted_away_score := roundHalfEven (3/10 * 3),
    home_win_probability := 1/2,
    draw_probability := 1/5,
    away_win_probability := 3/10,
    overall_confidence := max (max ((1:ℚ)/2) (3/10)) (1/5) }

/-- Claim C5, witness: the theorem applied to a concrete model emitting the
simplex vector `[0.5, 0.3, 0.2]`. -/
theorem c5_witness :
    |outC5.home_win_probability + outC5.away_win_probability + outC5.draw_probability - 1|
        ≤ 1/1000000
    ∧ outC5.overall_confidence
        = max outC5.home_win_probability
            (max outC5.away_win_probability outC5.draw_probability) :=
  c5_simplex semC5 () [] "random_forest" (1/2) (3/10) (1/5) 0 outC5 rfl (by norm_num) rfl

/-- Claim C2.  For every training configuration and whatever the external
library calls do, `train_model` returns a structured result and never raises:
the result is either `success` carrying the model name, the new version and
the accuracy, or `failure` carrying a message and the model name; in
particular an empty filtered training set yields a failure result, and so
does an unknown model family tag. -/
theorem c2_structured_result (M : Type) (p : TrainParams M) (cfg : TrainConfig) (db : DB)
    (files : List (StoredArtifact M)) :
    ((∃ a t, (train_model p cfg db files).1 = .success cfg.model_name p.now a t)
      ∨ (∃ msg, (train_model p cfg db files).1 = .failure msg cfg.model_name))
    ∧ (getTrainingMatches db cfg = [] →
        ∃ msg, (train_model p cfg db files).1 = .failure msg cfg.model_name)
    ∧ (cfg.model_type ∉ (["random_forest", "xgboost", "logistic_regression",
          "neural_network"] : List String) →
        ∃ msg, (train_model p cfg db files).1 = .failure msg cfg.model_name) := by
  refine ⟨?_, ?_, ?_⟩
  · cases h : trainCore p cfg db with
    | ok trip =>
      obtain ⟨mets, art, perf⟩ := trip
      exact Or.inl ⟨mets.accuracy, p.elapsed, by simp [train_model, h]⟩
    | error e => exact Or.inr ⟨e, by simp [train_model, h]⟩
  · intro h0
    have hc : trainCore p cfg db = .error "No training data available" := by
      unfold trainCore get_training_data
      rw [h0]
      rfl
    exact ⟨"No training data available", by simp [train_model, hc]⟩
  · intro hn
    have h1 : ¬ cfg.model_type = "random_forest" := fun hh => hn (by rw [hh]; simp)
    have h2 : ¬ cfg.model_type = "xgboost" := fun hh => hn (by rw [hh]; simp)
    have h3 : ¬ cfg.model_type = "logistic_regression" := fun hh => hn (by rw [hh]; simp)
    have h4 : ¬ cfg.model_type = "neural_network" := fun hh => hn (by rw [hh]; simp)
    cases h : trainCore p cfg db with
    | error e => exact ⟨e, by simp [train_model, h]⟩
    | ok trip =>
      exfalso
      revert h
      cases hg : get_training_data db cfg with
      | error e => simp [trainCore, hg]
      | ok triple =>
        obtain ⟨X, y, fcols⟩ := triple
        by_cases hx : X.length = 0
        · simp [trainCore, hg, hx]
        · cases hs : p.split X y cfg.test_size cfg.random_state with
          | error e => simp [trainCore, hg, hx, hs]
          | ok q =>
            obtain ⟨Xtr, Xte, ytr, yte⟩ := q
            simp [trainCore, hg, hx, hs, train_model_by_type, h1, h2, h3, h4]

/-- A training configuration with an unknown family tag. -/
def cfgC2 : TrainConfig := { model_name := "m1", model_type := "bogus" }

/-- Training library parameters for the C2 fixture. -/
def paramsC2 : TrainParams Unit :=
  { split := fun _ _ _ _ => .error "unused",
    fitRF := fun _ _ _ => .ok (), fitXGB := fun _ _ _ => .ok (),
    fitLR := fun _ _ _ => .ok (), fitNN := fun _ _ _ => .ok (),
    evaluate := fun _ _ _ _ => .error "unused",
    now := "20240101_000000", nowDate := 0, elapsed := "0:00:01" }

/-- Claim C2, witness: training on an empty database returns a structured
failure result carrying the model name. -/
theorem c2_witness :
    ∃ msg, (train_model paramsC2 cfgC2 dbEmpty ([] : List (StoredArtifact Unit))).1
        = .failure msg "m1" :=
  (c2_structured_result Unit paramsC2 cfgC2 dbEmpty []).2.1 rfl

/-- Deactivation never changes the primary key. -/
theorem deactivate_id (n : String) (r : PerformanceRecord) : (deactivate n r).id = r.id := by
  unfold deactivate; split <;> rfl

/-- Deactivation never changes the model name. -/
theorem deactivate_name (n : String) (r : PerformanceRecord) :
    (deactivate n r).model_name = r.model_name := by
  unfold deactivate; split <;> rfl

/-- Deactivation never changes the training date. -/
theorem deactivate_date (n : String) (r : PerformanceRecord) :
    (deactivate n r).training_date = r.training_date := by
  unfold deactivate; split <;> rfl

/-- The latest-row query is empty only on an empty row set. -/
theorem pickLatest_ne_nil (l : List PerformanceRecord) (h : pickLatest l = none) : l = [] := by
  cases l with
  | nil => rfl
  | cons x xs =>
    unfold pickLatest at h
    cases hx : pickLatest xs with
    | none => rw [hx] at h; dsimp only at h; cases h
    | some b =>
      rw [hx] at h; dsimp only at h
      by_cases hd : x.training_date < b.training_date
      · rw [if_pos hd] at h; cases h
      · rw [if_neg hd] at h; cases h

/-- The latest-row query returns a member of the row set. -/
theorem pickLatest_mem (l : List PerformanceRecord) (r : PerformanceRecord)
    (h : pickLatest l = some r) : r ∈ l := by
  induction l generalizing r with
  | nil => simp [pickLatest] at h
  | cons x xs ih =>
    unfold pickLatest at h
    cases hx : pickLatest xs with
    | none => rw [hx] at h; dsimp only at h; cases h; exact List.mem_cons_self _ _
    | some b =>
      rw [hx] at h; dsimp only at h
      by_cases hd : x.training_date < b.training_date
      · rw [if_pos hd] at h; cases h; exact List.mem_cons_of_mem _ (ih _ hx)
      · rw [if_neg hd] at h; cases h; exact List.mem_cons_self _ _

/-- The latest-row query returns a row of maximal training date. -/
theorem pickLatest_max (l : List PerformanceRecord) (r : PerformanceRecord)
    (h : pickLatest l = some r) : ∀ s ∈ l, s.training_date ≤ r.training_date := by
  induction l generalizing r with
  | nil => simp [pickLatest] at h
  | cons x xs ih =>
    unfold pickLatest at h
    cases hx : pickLatest xs with
    | none =>
      rw [hx] at h; dsimp only at h; cases h
      intro s hs
      have hxs := pickLatest_ne_nil xs hx
      subst hxs
      cases hs with
      | head => exact le_refl _
      | tail _ hmem => cases hmem
    | some b =>
      rw [hx] at h; dsimp only at h
      by_cases hd : x.training_date < b.training_date
      · rw [if_pos hd] at h; cases h
        intro s hs
        cases hs with
        | head => exact le_of_lt hd
        | tail _ hmem => exact ih _ hx s hmem
      · rw [if_neg hd] at h; cases h
        intro s hs
        cases hs with
        | head => exact le_refl _
        | tail _ hmem => exact le_trans (ih _ hx s hmem) (le_of_not_lt hd)

/-- Claim C6, amended.  The activation endpoint takes only the model name (no
version can be requested); when it succeeds it clears `is_active` on every row
of that name and then sets it on the row with the most recent training date:
afterwards exactly one row of the name is active, it is that latest-by-date
row (whose version the endpoint reports), and rows of other model names are
untouched.  Row ids are assumed distinct, as they are a primary key. -/
theorem c6_activation_exclusive (model_name : String) (db : DB) (db' : DB) (v : String)
    (hnodup : (db.performances.map (fun r => r.id)).Nodup)
    (hok : activate_model model_name db = .ok (db', v)) :
    (∃ r ∈ db'.performances, r.model_name = model_name ∧ r.is_active = true
        ∧ r.model_version = v
        ∧ ∀ s ∈ db.performances, s.model_name = model_name →
            s.training_date ≤ r.training_date)
    ∧ (∀ r ∈ db'.performances, ∀ s ∈ db'.performances,
        r.model_name = model_name → s.model_name = model_name →
        r.is_active = true → s.is_active = true → r = s)
    ∧ (∀ r ∈ db'.performances, r.model_name ≠ model_name → r ∈ db.performances) := by
  unfold activate_model at hok
  dsimp only at hok
  cases hp : pickLatest ((clearActive model_name db.performances).filter
      (fun r => r.model_name = model_name)) with
  | none => rw [hp] at hok; dsimp only at hok; cases hok
  | some latest =>
    rw [hp] at hok
    dsimp only at hok
    simp only [Except.ok.injEq, Prod.mk.injEq] at hok
    obtain ⟨hdb, hv⟩ := hok
    subst hdb; subst hv
    have hlatF := pickLatest_mem _ _ hp
    have hlatC : latest ∈ clearActive model_name db.performances :=
      (List.mem_filter.mp hlatF).1
    have hlatName : latest.model_name = model_name := by
      have := (List.mem_filter.mp hlatF).2
      simpa using this
    have hclid : (clearActive model_name db.performances).map (fun r => r.id)
        = db.performances.map (fun r => r.id) := by
      unfold clearActive
      rw [List.map_map]
      exact List.map_congr_left (fun a _ => deactivate_id model_name a)
    have hnodup' : ((clearActive model_name db.performances).map (fun r => r.id)).Nodup := by
      rw [hclid]; exact hnodup
    have hkey : ∀ r, r ∈ (clearActive model_name db.performances).map
          (fun r => if r.id = latest.id then { r with is_active := true } else r) →
        r.model_name = model_name → r.is_active = true →
        r = { latest with is_active := true } := by
      intro r hr hname hact
      obtain ⟨c, hc, hgc⟩ := List.mem_map.mp hr
      by_cases hcid : c.id = latest.id
      · have hceq : c = latest := List.inj_on_of_nodup_map hnodup' hc hlatC hcid
        rw [← hgc, if_pos hcid, hceq]
      · rw [if_neg hcid] at hgc
        subst hgc
        obtain ⟨o, ho, hco⟩ := List.mem_map.mp hc
        by_cases hon : o.model_name = model_name
        · have hfalse : c.is_active = false := by
            rw [← hco]; simp [deactivate, hon]
          rw [hfalse] at hact; cases hact
        · have hcn : c.model_name = o.model_name := by rw [← hco]; exact deactivate_name _ _
          rw [hcn] at hname
          exact absurd hname hon
    refine ⟨⟨{ latest with is_active := true }, ?_, hlatName, rfl, rfl, ?_⟩, ?_, ?_⟩
    · exact List.mem_map.mpr ⟨latest, hlatC, by rw [if_pos rfl]⟩
    · intro s hs hsn
      have hfs : deactivate model_name s ∈ clearActive model_name db.performances :=
        List.mem_map.mpr ⟨s, hs, rfl⟩
      have hfilt : deactivate model_name s ∈ (clearActive model_name db.performances).filter
          (fun r => r.model_name = model_name) :=
        List.mem_filter.mpr ⟨hfs, by simp [deactivate_name, hsn]⟩
      have hle := pickLatest_max _ _ hp _ hfilt
      rw [deactivate_date] at hle
      exact hle
    · intro r hr s hs h1 h2 h3 h4
      rw [hkey r hr h1 h3, hkey s hs h2 h4]
    · intro r hr hrn
      obtain ⟨c, hc, hgc⟩ := List.mem_map.mp hr
      obtain ⟨o, ho, hco⟩ := List.mem_map.mp hc
      by_cases hon : o.model_name = model_name
      · exfalso
        have hgn : r.model_name = c.model_name := by
          rw [← hgc]
          split <;> rfl
        have hcn : c.model_name = o.model_name := by rw [← hco]; exact deactivate_name _ _
        exact hrn (by rw [hgn, hcn, hon])
      · have hco' : c = o := by rw [← hco]; simp [deactivate, hon]
        by_cases hcid : c.id = latest.id
        · exfalso
          obtain ⟨o', ho', hco2⟩ := List.mem_map.mp hlatC
          have ho'n : o'.model_name = model_name := by
            rw [← hco2, deactivate_name] at hlatName
            exact hlatName
          rw [hco'] at hcid
          have e2 : latest.id = o'.id := by rw [← hco2, deactivate_id]
          have hids : o.id = o'.id := hcid.trans e2
          have hoo : o = o' := List.inj_on_of_nodup_map hnodup ho ho' hids
          rw [hoo] at hon
          exact hon ho'n
        · have hrc : r = c := by rw [← hgc, if_neg hcid]
          rw [hrc, hco']
          exact ho

/-- Two performance rows for model `"m1"`: version `"v1"` trained later
(training date 2) than version `"v2"` (training date 1). -/
def dbC6 : DB :=
  ⟨[], [], [], [⟨1, "m1", "v1", 0, 0, 0, 2, false, false⟩,
                ⟨2, "m1", "v2", 0, 0, 0, 1, false, false⟩], 1, 3⟩

/-- The session state after any number of activations of `"m1"` on `dbC6`. -/
def dbC6After : DB :=
  ⟨[], [], [], [⟨1, "m1", "v1", 0, 0, 0, 2, true, false⟩,
                ⟨2, "m1", "v2", 0, 0, 0, 1, false, false⟩], 1, 3⟩

/-- Claim C6, counterexample to the claim as stated: the activation route
accepts no version argument, so the claim's scenario `activate("m1","v2")`
after `activate("m1","v1")` can only be realised as two calls of
`activate("m1")` — and with `"v2"` older than `"v1"` the single active record
afterwards is `"v1"`, not the requested `"v2"`: a non-latest version can never
be activated. -/
theorem c6_counterexample :
    Except.bind (activate_model "m1" dbC6) (fun x => activate_model "m1" x.1)
        = .ok (dbC6After, "v1")
    ∧ (dbC6After.performances.filter (fun r => r.is_active)).map (fun r => r.model_version)
        = ["v1"]
    ∧ ("v1" : String) ≠ "v2" :=
  ⟨rfl, rfl, by decide⟩

/-- A one-row fixture for the activation witness. -/
def dbC6W : DB := ⟨[], [], [], [⟨1, "m1", "v1", 0, 0, 0, 5, false, false⟩], 1, 2⟩

/-- The fixture after activation. -/
def dbC6WAfter : DB := ⟨[], [], [], [⟨1, "m1", "v1", 0, 0, 0, 5, true, false⟩], 1, 2⟩

/-- Claim C6, witness: the amended theorem applied to a concrete activation. -/
theorem c6_witness :
    (∃ r ∈ dbC6WAfter.performances, r.model_name = "m1" ∧ r.is_active = true
        ∧ r.model_version = "v1"
        ∧ ∀ s ∈ dbC6W.performances, s.model_name = "m1" →
            s.training_date ≤ r.training_date)
    ∧ (∀ r ∈ dbC6WAfter.performances, ∀ s ∈ dbC6WAfter.performances,
        r.model_name = "m1" → s.model_name = "m1" →
        r.is_active = true → s.is_active = true → r = s)
    ∧ (∀ r ∈ dbC6WAfter.performances, r.model_name ≠ "m1" → r ∈ dbC6W.performances) :=
  c6_activation_exclusive "m1" dbC6W dbC6WAfter "v1" (by decide) rfl

/-- Python string comparison is irreflexive. -/
theorem lexLt_irrefl (l : List Char) : lexLt l l = false := by
  induction l with
  | nil => rfl
  | cons a as ih => simp [lexLt, lt_self_iff_false, ih]

/-- A common prefix does not affect the comparison. -/
theorem lexLt_append_left (p u v : List Char) : lexLt (p ++ u) (p ++ v) = lexLt u v := by
  induction p with
  | nil => rfl
  | cons a ps ih => simp [lexLt, lt_self_iff_false, ih]

/-- A common suffix after equal-length segments does not affect the comparison. -/
theorem lexLt_append_right (u v s : List Char) (h : u.length = v.length) :
    lexLt (u ++ s) (v ++ s) = lexLt u v := by
  induction u generalizing v with
  | nil =>
    cases v with
    | nil => exact lexLt_irrefl s
    | cons b bs => simp at h
  | cons a as ih =>
    cases v with
    | nil => simp at h
    | cons b bs =>
      simp only [List.cons_append, lexLt]
      by_cases h1 : a < b
      · simp [h1]
      · by_cases h2 : b < a
        · simp [h1, h2]
        · simp [h1, h2, ih bs (by simpa using h)]

/-- Comparison of equal-length segments wrapped in a common prefix and suffix. -/
theorem lexLt_sandwich (p s u v : List Char) (h : u.length = v.length) :
    lexLt ((p ++ u) ++ s) ((p ++ v) ++ s) = lexLt u v := by
  rw [List.append_assoc, List.append_assoc, lexLt_append_left]
  exact lexLt_append_right u v s h

/-- Python string comparison is transitive. -/
theorem lexLt_trans (u v w : List Char) (h1 : lexLt u v = true) (h2 : lexLt v w = true) :
    lexLt u w = true := by
  induction u generalizing v w with
  | nil =>
    cases w with
    | nil =>
      cases v with
      | nil => exact h2
      | cons b bs => simp [lexLt] at h2
    | cons c cs => rfl
  | cons a as ih =>
    cases v with
    | nil => simp [lexLt] at h1
    | cons b bs =>
      cases w with
      | nil => simp [lexLt] at h2
      | cons c cs =>
        simp only [lexLt] at h1 h2 ⊢
        by_cases hab : a < b
        · by_cases hbc : b < c
          · simp [lt_trans hab hbc]
          · by_cases hcb : c < b
            · simp [hbc, hcb] at h2
            · have hbceq : b = c := le_antisymm (le_of_not_lt hcb) (le_of_not_lt hbc)
              subst hbceq
              simp [hab]
        · by_cases hba : b < a
          · simp [hab, hba] at h1
          · have habeq : a = b := le_antisymm (le_of_not_lt hba) (le_of_not_lt hab)
            subst habeq
            simp [lt_self_iff_false] at h1
            by_cases hac : a < c
            · simp [hac]
            · by_cases hca : c < a
              · simp [hac, hca] at h2
              · have haceq : a = c := le_antisymm (le_of_not_lt hca) (le_of_not_lt hac)
                subst haceq
                simp [lt_self_iff_false] at h2 ⊢
                exact ih bs cs h1 h2

/-- Python string comparison is total: mutually incomparable lists are equal. -/
theorem lexLt_eq_of_not_lt (u v : List Char) (h1 : lexLt u v = false) (h2 : lexLt v u = false) :
    u = v := by
  induction u generalizing v with
  | nil =>
    cases v with
    | nil => rfl
    | cons b bs => simp [lexLt] at h1
  | cons a as ih =>
    cases v with
    | nil => simp [lexLt] at h2
    | cons b bs =>
      simp only [lexLt] at h1 h2
      by_cases hab : a < b
      · simp [hab] at h1
      · by_cases hba : b < a
        · simp [hab, hba] at h2
        · have habeq : a = b := le_antisymm (le_of_not_lt hba) (le_of_not_lt hab)
          subst habeq
          simp [lt_self_iff_false] at h1 h2
          rw [ih bs h1 h2]

/-- String-level irreflexivity. -/
theorem pyStrLt_irrefl (s : String) : pyStrLt s s = false := lexLt_irrefl s.data

/-- String-level transitivity. -/
theorem pyStrLt_trans (s t u : String) (h1 : pyStrLt s t = true) (h2 : pyStrLt t u = true) :
    pyStrLt s u = true := lexLt_trans s.data t.data u.data h1 h2

/-- String-level totality. -/
theorem pyStrLt_eq_of_not_lt (s t : String) (h1 : pyStrLt s t = false)
    (h2 : pyStrLt t s = false) : s = t :=
  String.ext (lexLt_eq_of_not_lt s.data t.data h1 h2)

/-- The character data of an artifact file name, name factored out. -/
theorem filename_data {M : Type} (n : String) (a : StoredArtifact M) (ha : a.name = n) :
    (artifactFilename a).data = ((n ++ "_").data ++ a.version.data) ++ ".pkl".data := by
  unfold artifactFilename
  rw [ha]
  simp [String.data_append]

/-- For artifacts of one model name with equal-length versions, file names
compare exactly as versions do. -/
theorem filename_lt_iff {M : Type} (n : String) (L : Nat) (a b : StoredArtifact M)
    (ha : a.name = n) (hb : b.name = n)
    (hla : a.version.length = L) (hlb : b.version.length = L) :
    pyStrLt (artifactFilename a) (artifactFilename b) = pyStrLt a.version b.version := by
  unfold pyStrLt
  rw [filename_data n a ha, filename_data n b hb]
  exact lexLt_sandwich _ _ _ _ (hla.trans hlb.symm)

/-- For artifacts of one model name, equal file names mean equal versions. -/
theorem filename_inj_version {M : Type} (n : String) (a b : StoredArtifact M)
    (ha : a.name = n) (hb : b.name = n)
    (h : artifactFilename a = artifactFilename b) : a.version = b.version := by
  have hd : (artifactFilename a).data = (artifactFilename b).data := by rw [h]
  rw [filename_data n a ha, filename_data n b hb] at hd
  exact String.ext (List.append_cancel_left (List.append_cancel_right hd))

/-- The running maximum of the versions, mirroring `sorted(files)[-1]` at the
artifact level. -/
def latestByVersion {M : Type} (a : StoredArtifact M) (l : List (StoredArtifact M)) :
    StoredArtifact M :=
  l.foldl (fun x y => if pyStrLt x.version y.version then y else x) a

/-- One step of the running version maximum. -/
theorem latestByVersion_cons {M : Type} (a y : StoredArtifact M)
    (ys : List (StoredArtifact M)) :
    latestByVersion a (y :: ys)
      = latestByVersion (if pyStrLt a.version y.version = true then y else a) ys := rfl

/-- The running version maximum picks an element of the list. -/
theorem latestByVersion_mem {M : Type} (a : StoredArtifact M) (l : List (StoredArtifact M)) :
    latestByVersion a l ∈ a :: l := by
  induction l generalizing a with
  | nil => exact List.mem_cons_self _ _
  | cons y ys ih =>
    rw [latestByVersion_cons]
    by_cases h : pyStrLt a.version y.version = true
    · rw [if_pos h]
      exact List.mem_cons_of_mem a (ih y)
    · rw [if_neg h]
      rcases List.mem_cons.mp (ih a) with h' | h'
      · rw [h']; exact List.mem_cons_self _ _
      · exact List.mem_cons_of_mem _ (List.mem_cons_of_mem _ h')

/-- Nothing in the list compares above the running version maximum. -/
theorem latestByVersion_max {M : Type} (a : StoredArtifact M) (l : List (StoredArtifact M)) :
    ∀ b ∈ a :: l, pyStrLt (latestByVersion a l).version b.version = false := by
  induction l generalizing a with
  | nil =>
    intro b hb
    rcases List.mem_cons.mp hb with h | h
    · rw [h]; exact pyStrLt_irrefl _
    · cases h
  | cons y ys ih =>
    intro b hb
    rw [latestByVersion_cons]
    by_cases hay : pyStrLt a.version y.version = true
    · rw [if_pos hay]
      rcases List.mem_cons.mp hb with hba | hb2
      · by_contra hc
        rw [Bool.not_eq_false] at hc
        rw [hba] at hc
        have hry := ih y y (List.mem_cons_self _ _)
        have hlt := pyStrLt_trans _ _ _ hc hay
        simp [hlt] at hry
      · exact ih y b hb2
    · rw [if_neg hay]
      rcases List.mem_cons.mp hb with hba | hb2
      · rw [hba]; exact ih a a (List.mem_cons_self _ _)
      · rcases List.mem_cons.mp hb2 with hby | hb3
        · by_contra hc
          rw [Bool.not_eq_false] at hc
          have hra := ih a a (List.mem_cons_self _ _)
          rw [Bool.not_eq_true] at hay
          rw [← hby] at hay
          by_cases hba2 : pyStrLt b.version a.version = true
          · have hlt := pyStrLt_trans _ _ _ hc hba2
            simp [hlt] at hra
          · rw [Bool.not_eq_true] at hba2
            have hveq := pyStrLt_eq_of_not_lt _ _ hba2 hay
            rw [hveq] at hc
            simp [hc] at hra
        · exact ih a b (List.mem_cons_of_mem _ hb3)

/-- Under one model name and equal-length versions, `sorted(files)[-1]` is the
file name of the artifact with maximal version. -/
theorem maxString_filename {M : Type} (n : String) (L : Nat) (f : StoredArtifact M)
    (fs : List (StoredArtifact M))
    (hname : ∀ a ∈ f :: fs, a.name = n) (hlen : ∀ a ∈ f :: fs, a.version.length = L) :
    maxString (artifactFilename f) (fs.map (fun a => artifactFilename a))
      = artifactFilename (latestByVersion f fs) := by
  induction fs generalizing f with
  | nil => rfl
  | cons y ys ih =>
    rw [latestByVersion_cons]
    simp only [List.map_cons, maxString, List.foldl_cons]
    have hf := List.mem_cons_self f (y :: ys)
    have hy : y ∈ f :: y :: ys := List.mem_cons_of_mem _ (List.mem_cons_self _ _)
    have hcond := filename_lt_iff n L f y (hname f hf) (hname y hy) (hlen f hf) (hlen y hy)
    rw [hcond]
    by_cases h : pyStrLt f.version y.version = true
    · rw [if_pos h, if_pos h]
      exact ih y (fun a ha => hname a (List.mem_cons_of_mem _ ha))
        (fun a ha => hlen a (List.mem_cons_of_mem _ ha))
    · rw [if_neg h, if_neg h]
      refine ih f (fun a ha => ?_) (fun a ha => ?_)
      · rcases List.mem_cons.mp ha with h2 | h2
        · subst h2; exact hname a hf
        · exact hname a (List.mem_cons_of_mem _ (List.mem_cons_of_mem _ h2))
      · rcases List.mem_cons.mp ha with h2 | h2
        · subst h2; exact hlen a hf
        · exact hlen a (List.mem_cons_of_mem _ (List.mem_cons_of_mem _ h2))

/-- Claim C4, amended.  For a store whose artifacts all carry the requested
model name and whose version strings all have one common length (as the
time-derived `%Y%m%d_%H%M%S` versions do), loading with the version omitted
resolves to an artifact in the store whose version every stored version is
equal to or lexicographically below.  (Without these side conditions the
claim fails: the `startswith(name + "_")` file filter also matches other
model names sharing the prefix.) -/
theorem c4_latest_resolution (M : Type) (files : List (StoredArtifact M)) (model_name : String)
    (L : Nat) (hne : files ≠ [])
    (hname : ∀ a ∈ files, a.name = model_name)
    (hlen : ∀ a ∈ files, a.version.length = L) :
    ∃ a, load_model files model_name none = .ok a ∧ a ∈ files ∧
      ∀ b ∈ files, b.version = a.version ∨ pyStrLt b.version a.version = true := by
  obtain ⟨f, fs, rfl⟩ := List.exists_cons_of_ne_nil hne
  have hfilter : ((f :: fs).map (fun a => artifactFilename a)).filter
      (fun fn => pyStartsWith (model_name ++ "_") fn && pyEndsWith ".pkl" fn)
      = (f :: fs).map (fun a => artifactFilename a) := by
    rw [List.filter_eq_self]
    intro fn hfn
    obtain ⟨a, ha, rfl⟩ := List.mem_map.mp hfn
    simp only [Bool.and_eq_true]
    constructor
    · unfold pyStartsWith
      have hd := filename_data model_name a (hname a ha)
      rw [hd]
      exact List.isPrefixOf_iff_prefix.mpr
        ((List.prefix_append _ _).trans (List.prefix_append _ _))
    · unfold pyEndsWith
      have hd := filename_data model_name a (hname a ha)
      rw [hd]
      exact List.isSuffixOf_iff_suffix.mpr (List.suffix_append _ _)
  have hmax := maxString_filename model_name L f fs hname hlen
  set best := latestByVersion f fs with hbestdef
  have hbest : best ∈ f :: fs := latestByVersion_mem f fs
  have hbestname : best.name = model_name := hname _ hbest
  cases hfind : (f :: fs).find? (fun a => artifactFilename a = artifactFilename best) with
  | none =>
    exfalso
    have hco := List.find?_eq_none.mp hfind best hbest
    simp at hco
  | some a0 =>
    have ha0mem := List.mem_of_find?_eq_some hfind
    have ha0fn : artifactFilename a0 = artifactFilename best := by
      have := List.find?_some hfind
      simpa using this
    have ha0v : a0.version = best.version :=
      filename_inj_version model_name a0 best (hname _ ha0mem) hbestname ha0fn
    have hload : load_model (f :: fs) model_name none = .ok a0 := by
      unfold load_model
      rw [hfilter]
      simp only [List.map_cons]
      rw [hmax, hfind]
    refine ⟨a0, hload, ha0mem, ?_⟩
    intro b hbmem
    have hnotlt := latestByVersion_max f fs b hbmem
    by_cases hblt : pyStrLt b.version best.version = true
    · right; rw [ha0v]; exact hblt
    · left
      rw [Bool.not_eq_true] at hblt
      rw [ha0v]
      exact pyStrLt_eq_of_not_lt _ _ hblt hnotlt

/-- A store where another model name (`"m_x"`) shares the file-name prefix of
the requested name (`"m"`). -/
def filesC4bad : List (StoredArtifact Unit) :=
  [⟨"m", "20240101_000000", "random_forest", [], ()⟩,
   ⟨"m_x", "20240615_120000", "random_forest", [], ()⟩]

/-- Claim C4, counterexample to the claim as stated: loading `"m"` with the
version omitted resolves to the artifact of the *other* model name `"m_x"`,
because its file name `m_x_20240615_120000.pkl` passes the
`startswith("m_")` filter and sorts above `m_20240101_000000.pkl`; the
lexicographically maximal version for the name `"m"` itself is
`"20240101_000000"`, which is not what loads. -/
theorem c4_counterexample :
    (load_model filesC4bad "m" none).map (fun a => (a.name, a.version))
        = .ok ("m_x", "20240615_120000")
    ∧ (filesC4bad.filter (fun a => a.name = "m")).map (fun a => a.version)
        = ["20240101_000000"]
    ∧ (("m_x", "20240615_120000") : String × String) ≠ ("m", "20240101_000000") :=
  ⟨rfl, rfl, by decide⟩

/-- The claim's three-version store for one model name. -/
def filesC4 : List (StoredArtifact Unit) :=
  [⟨"m", "20240101_000000", "random_forest", [], ()⟩,
   ⟨"m", "20240615_120000", "random_forest", [], ()⟩,
   ⟨"m", "20231231_235959", "random_forest", [], ()⟩]

/-- Claim C4, witness: on the claim's own instance — versions
`20240101_000000`, `20240615_120000`, `20231231_235959` for one name — the
amended theorem applies, and the omitted-version load resolves to
`20240615_120000`. -/
theorem c4_witness :
    (∃ a, load_model filesC4 "m" none = .ok a ∧ a ∈ filesC4 ∧
        ∀ b ∈ filesC4, b.version = a.version ∨ pyStrLt b.version a.version = true)
    ∧ (load_model filesC4 "m" none).map (fun a => a.version) = .ok "20240615_120000" :=
  ⟨c4_latest_resolution Unit filesC4 "m" 15 (List.cons_ne_nil _ _) (by decide) (by decide),
   rfl⟩
